import Mathlib

/-
  Verification of the HR E-Book generator (src/7_ebook.py).

  The program is a single-page Streamlit app: it builds a prompt from a
  user-supplied community name, calls a hosted text-generation provider,
  strips code-fence and wrapper-tag markers from the response with a chain
  of Python str.replace calls, stores the result in session state, and
  offers a download whose data is the edited content wrapped in a fixed
  HTML template.

  Text is modelled as Lean String (Python str); the seven-replacement
  sanitizer is modelled by an explicit left-to-right, non-overlapping,
  greedy replacement function on the underlying character list, which is
  exactly the semantics of Python str.replace for a non-empty pattern.
-/

/-- Greedy left-to-right non-overlapping replacement of `pat` by `rep`,
    the semantics of Python `str.replace` for a non-empty pattern.  The
    `Nat` argument is structural fuel; one unit is spent per scan step and
    every step consumes at least one character, so fuel `s.length`
    computes the full replacement. -/
def replaceAux (pat rep : List Char) : Nat → List Char → List Char
  | 0, s => s
  | _ + 1, [] => []
  | n + 1, c :: cs =>
    if pat ≠ [] ∧ pat <+: (c :: cs) then
      rep ++ replaceAux pat rep n (List.drop pat.length (c :: cs))
    else
      c :: replaceAux pat rep n cs

/-- Python `s.replace(pat, rep)` on strings (non-empty `pat`). -/
def pyReplace (s pat rep : String) : String :=
  ⟨replaceAux pat.data rep.data s.data.length s.data⟩

/-- Number of greedy non-overlapping occurrences of `pat` found by the same
    left-to-right scan as `replaceAux` (Python `s.count(pat)`). -/
def countAux (pat : List Char) : Nat → List Char → Nat
  | 0, _ => 0
  | _ + 1, [] => 0
  | n + 1, c :: cs =>
    if pat ≠ [] ∧ pat <+: (c :: cs) then
      1 + countAux pat n (List.drop pat.length (c :: cs))
    else
      countAux pat n cs

/-- Occurrence count entry point. -/
def countOcc (pat s : List Char) : Nat := countAux pat s.length s

/-- The response sanitizer of src/7_ebook.py lines 125-128:
    `response.text.replace("```html", "").replace("```", "")` followed by
    removal of `<!DOCTYPE html>`, `<html>`, `</html>`, `<body>`, `</body>`. -/
def clean_text (s : String) : String :=
  pyReplace (pyReplace (pyReplace (pyReplace (pyReplace (pyReplace (pyReplace
    s "```html" "") "```" "") "<!DOCTYPE html>" "") "<html>" "") "</html>" "")
    "<body>" "") "</body>" ""

/-- The seven literal marker substrings removed by `clean_text`, in the
    order the code applies them. -/
def markers : List String :=
  ["```html", "```", "<!DOCTYPE html>", "<html>", "</html>", "<body>", "</body>"]

/-- The backtick character, obtained from a string literal. -/
def btChar : Char := ("`".data).headD 'A'


/- The prompt of build_prompt (src/7_ebook.py lines 44-92).  The Python
   f-string is written as explicit concatenation, split at the three
   `{community}` interpolation points and at the 16 section labels; the
   concatenation of all pieces is byte-for-byte the f-string text.
   Apostrophes and double quotes of the source text appear as the escapes
   \x27 and \". -/

def promptSeg0 : String := "\n    You are an Expert Industry Analyst and Career Strategist with an IQ of 220. \n    Your task is to write a comprehensive, publication-ready E-Book for a IT and Non-IT Recruiting Agency targeting the specific community: \x27"

def promptSeg1 : String := "\x27.\n\n    **OBJECTIVE:**\n    Generate a 10-15 page equivalent professional guide. The tone must be authoritative, motivational, \n    and strictly industry-focused but make it human refined for GenZ or Youth.\n    \n    **CONSTRAINTS:**\n    1. NO storytelling, NO metaphors, NO fictional scenarios.\n    2. NO conversational filler (e.g., \"Let\x27s dive in\") or No Conversational Heading(e.g., \"Defining...)\n    3. Output MUST be valid, standalone HTML5 code with embedded CSS.\n    4. The CSS must ensure the document looks like a professional whitepaper (Serif fonts for body, distinct headers, good line-height & padding, clear margins).\n    5. Make it human refined for GenZ or Youth and make it humanized with a professional documnetation format.\n    6. Avoid adding any of the instructions in the E Book content.\n    7. Make sure that all the sections are formatted properly in bold, headers and sub headers)\n    \n    **INTERNAL MINDSET (Do not explicitly state this, but embody it):**\n    - What is the Industry? -> Insights, trends.\n    - What is there for Me? -> Roles, specific skills.\n    - How do I enter? -> Actionable roadmaps.\n\n    **REQUIRED E-BOOK STRUCTURE (Strictly follow this order and have a golden format same for every resume):**\n    1. "

def promptSeg2 : String := " (Brief executive summary)\n    2. "

def promptSeg3 : String := " (Hyperlinked internally and Indexed Numbering tabular format)\n    3. "

def promptSeg4 : String := " (Definition and scope of "

def promptSeg5 : String := ")\n    4. "

def promptSeg6 : String := " (History and Future of that respective field)\n    5. "

def promptSeg7 : String := " (Detailed job titles and hierarchies)\n    6. "

def promptSeg8 : String := " (Hard and Soft skills matrix)\n    7. "

def promptSeg9 : String := " (Future trends, AI impact)\n    8. "

def promptSeg10 : String := " (Prerequisites and mindset)\n    9. "

def promptSeg11 : String := " (Communication, leadership)\n    10. "

def promptSeg12 : String := " (0-6 months, 6-12 months, 1-3 years)\n    11. "

def promptSeg13 : String := " (3 specific, real-world portfolio projects with descriptions)\n    12. "

def promptSeg14 : String := " (Specific names of tools and credentials)\n    13. "

def promptSeg15 : String := " (Top tier, mid-tier, and startups hiring "

def promptSeg16 : String := ")\n    14. "

def promptSeg17 : String := " (Entry, Mid, Senior levels)\n    15. "

def promptSeg18 : String := " (Final actionable advice)\n    16. "

def promptSeg19 : String := " (Checklists, resume keywords)\n\n    **HTML STYLING REQUIREMENTS:**\n    - Use a clean font-family (e.g., \x27Merriweather\x27, serif for text; \x27Arial\x27, sans-serif for headers).\n    - Use <h2>, <h3> for sections.\n    - Use <ul> and <li> for lists to make it scannable.\n    - Use <div style=\"background-color: #f0f2f6; padding: 15px; border-left: 5px solid #2c3e50; margin: 10px 0;\"> for key takeaway, Have text in proper black color text.\n    - Do NOT include markdown blocks (```html). Just return the raw HTML code.\n    - Make it  an editable E-Book through HTML.\n    "

/-- The prompt builder of src/7_ebook.py lines 44-92 (`build_prompt`). -/
def build_prompt (community : String) : String :=
  promptSeg0 ++ community ++ promptSeg1 ++ "PREFACE" ++ promptSeg2 ++
  "TABLE OF CONTENTS" ++ promptSeg3 ++ "INTRODUCTION" ++ promptSeg4 ++
  community ++ promptSeg5 ++ "INDUSTRY EVOLUTION" ++ promptSeg6 ++ "ROLES" ++
  promptSeg7 ++ "SKILLS" ++ promptSeg8 ++ "10-YEAR GROWTH OUTLOOK" ++
  promptSeg9 ++ "HOW TO PREPARE" ++ promptSeg10 ++
  "INTERPERSONAL & BEHAVIORAL SKILLS" ++ promptSeg11 ++
  "LEARNING CURVE & ROADMAP" ++ promptSeg12 ++ "EXAMPLE PROJECTS" ++
  promptSeg13 ++ "CERTIFICATIONS / COURSES / TOOLS" ++ promptSeg14 ++
  "COMPANY EXAMPLES" ++ promptSeg15 ++ community ++ promptSeg16 ++
  "SALARY RANGES & PERKS" ++ promptSeg17 ++ "CONCLUSION" ++ promptSeg18 ++
  "APPENDIX & TEMPLATES" ++ promptSeg19

/-- The 16 required section labels, in the order the prompt lists them. -/
def sections : List String :=
  ["PREFACE", "TABLE OF CONTENTS", "INTRODUCTION", "INDUSTRY EVOLUTION",
   "ROLES", "SKILLS", "10-YEAR GROWTH OUTLOOK", "HOW TO PREPARE",
   "INTERPERSONAL & BEHAVIORAL SKILLS", "LEARNING CURVE & ROADMAP",
   "EXAMPLE PROJECTS", "CERTIFICATIONS / COURSES / TOOLS", "COMPANY EXAMPLES",
   "SALARY RANGES & PERKS", "CONCLUSION", "APPENDIX & TEMPLATES"]

/-- The given strings occur in the text, in the given order, each after the
    previous one. -/
def InOrder : List String → String → Prop
  | [], _ => True
  | p :: ps, s => ∃ a b : String, s = a ++ p ++ b ∧ InOrder ps b

/- The HTML wrapper of the download (src/7_ebook.py lines 158-176): the
   edited content is spliced between a fixed head and tail.  The doubled
   braces of the Python f-string denote literal braces, written here as
   the escapes \x7b and \x7d. -/

def html_head : String := "\n    <!DOCTYPE html>\n    <html>\n    <head>\n        <meta charset=\"UTF-8\">\n        <link href=\"[https://fonts.googleapis.com/css2?family=Merriweather:wght@300;400;700&display=swap](https://fonts.googleapis.com/css2?family=Merriweather:wght@300;400;700&display=swap)\" rel=\"stylesheet\">\n        <style>\n            body \x7b font-family: \x27Merriweather\x27, serif; line-height: 1.6; padding: 40px; max-width: 900px; margin: auto; color: #333; \x7d\n            h1, h2, h3 \x7b font-family: \x27Helvetica Neue\x27, sans-serif; color: #2c3e50; margin-top: 30px; \x7d\n            ul \x7b margin-bottom: 20px; \x7d\n            li \x7b margin-bottom: 10px; \x7d\n            .highlight \x7b background-color: #f0f2f6; padding: 15px; border-left: 5px solid #2c3e50; margin: 20px 0; \x7d\n        </style>\n    </head>\n    <body>\n        "

def html_tail : String := "\n    </body>\n    </html>\n    "

/-- The download artifact content (`final_html`): the edited document
    wrapped in the fixed template. -/
def final_html (edited_content : String) : String :=
  html_head ++ edited_content ++ html_tail

/-- The download file name of src/7_ebook.py line 183:
    `f"{target_community.replace(' ', '_')}_Guide.html" if target_community
    else "guide.html"`. -/
def download_file_name (target_community : String) : String :=
  if target_community = "" then "guide.html"
  else pyReplace target_community " " "_" ++ "_Guide.html"

/-- Modelled from the spec: "filename = community name with whitespace
    replaced by underscores, suffixed with a fixed label".  Every whitespace
    character is replaced; the suffix is the one the code uses. -/
def spec_download_file_name (name : String) : String :=
  (⟨name.data.map (fun ch => if ch.isWhitespace then '_' else ch)⟩ : String)
    ++ "_Guide.html"

/- The interactive surface, modelled as one pure transition.  Fields of
   RunResult: whether the script halted at the missing-credential check,
   the warning messages shown, the error messages shown, the session-state
   value `ebook_content` after the run, and how many provider calls were
   made. -/

structure RunResult where
  halted : Bool
  warnings : List String
  errors : List String
  ebook_content : String
  provider_calls : Nat

/-- The generate-button handler (src/7_ebook.py lines 111-137).  The
    provider is abstracted as a function returning either the response text
    or the message of a raised exception. -/
def generate_step (target_community : String)
    (provider : String → Except String String)
    (ebook_content : String) : RunResult :=
  if target_community = "" then
    ⟨false, ["Target community required."], [], ebook_content, 0⟩
  else
    match provider (build_prompt target_community) with
    | Except.ok resp => ⟨false, [], [], clean_text resp, 1⟩
    | Except.error e => ⟨false, [], ["Error: " ++ e], ebook_content, 1⟩

/-- One top-to-bottom execution of the script: the credential check of
    lines 8-12 (st.stop on a missing secret), then, when the generate
    button was pressed, the generate handler.  `prior_ebook` is the
    session-state value entering the run (empty on first load). -/
def app_run (secrets : Option String) (target_community : String)
    (generate_btn : Bool) (provider : String → Except String String)
    (prior_ebook : String) : RunResult :=
  match secrets with
  | none =>
    ⟨true, [], ["Please set your GEMINI_API_KEY in Streamlit Secrets."],
      prior_ebook, 0⟩
  | some _ =>
    if generate_btn then generate_step target_community provider prior_ebook
    else ⟨false, [], [], prior_ebook, 0⟩


/- Basic helper lemmas about prefixes and contiguous sublists. -/

theorem preNil {l : List Char} (h : l <+: ([] : List Char)) : l = [] := by
  have h' : ∃ t, l ++ t = [] := h
  obtain ⟨t, ht⟩ := h'
  exact (List.append_eq_nil.mp ht).1

theorem preTrans {l₁ l₂ l₃ : List Char} (h₁ : l₁ <+: l₂) (h₂ : l₂ <+: l₃) :
    l₁ <+: l₃ := by
  have h₁' : ∃ t, l₁ ++ t = l₂ := h₁
  have h₂' : ∃ t, l₂ ++ t = l₃ := h₂
  obtain ⟨a, ha⟩ := h₁'
  obtain ⟨b, hb⟩ := h₂'
  exact ⟨a ++ b, by rw [← hb, ← ha, List.append_assoc]⟩

theorem preIn {pat s : List Char} (h : pat <+: s) : pat <:+: s := by
  have h' : ∃ t, pat ++ t = s := h
  obtain ⟨t, ht⟩ := h'
  exact ⟨[], t, ht⟩

theorem inConsOfIn {pat cs : List Char} (c : Char) (h : pat <:+: cs) :
    pat <:+: c :: cs := by
  have h' : ∃ u v, u ++ pat ++ v = cs := h
  obtain ⟨u, v, huv⟩ := h'
  exact ⟨c :: u, v, by rw [List.cons_append, List.cons_append, huv]⟩

theorem inNilEq {pat : List Char} (h : pat <:+: ([] : List Char)) : pat = [] := by
  have h' : ∃ u v, u ++ pat ++ v = [] := h
  obtain ⟨u, v, huv⟩ := h'
  have h1 := (List.append_eq_nil.mp huv).1
  exact (List.append_eq_nil.mp h1).2

theorem inOfPreIn {l₁ l₂ l₃ : List Char} (h₁ : l₁ <+: l₂) (h₂ : l₂ <:+: l₃) :
    l₁ <:+: l₃ := by
  have h₁' : ∃ t, l₁ ++ t = l₂ := h₁
  have h₂' : ∃ u v, u ++ l₂ ++ v = l₃ := h₂
  obtain ⟨t, ht⟩ := h₁'
  obtain ⟨u, v, huv⟩ := h₂'
  refine ⟨u, t ++ v, ?_⟩
  rw [← huv, ← ht]
  simp [List.append_assoc]

/- Behavioral lemmas for the replacement scan. -/

/-- A pass over a string containing no occurrence of the pattern is the
    identity, whatever the fuel. -/
theorem replaceAux_id (pat rep : List Char) :
    ∀ (n : Nat) (s : List Char), ¬ pat <:+: s → replaceAux pat rep n s = s := by
  intro n
  induction n with
  | zero => intro s _; rfl
  | succ n ih =>
    intro s h
    cases s with
    | nil => rfl
    | cons c cs =>
      have hg : ¬ (pat ≠ [] ∧ pat <+: c :: cs) := by
        rintro ⟨-, hp⟩
        exact h (preIn hp)
      simp only [replaceAux, if_neg hg]
      rw [ih cs (fun hin => h (inConsOfIn c hin))]

/-- Deleting occurrences never lengthens the text. -/
theorem replaceAux_length_le (pat : List Char) :
    ∀ (n : Nat) (s : List Char), s.length ≤ n →
      (replaceAux pat [] n s).length ≤ s.length := by
  intro n
  induction n with
  | zero => intro s _; exact le_rfl
  | succ n ih =>
    intro s hle
    cases s with
    | nil => exact le_rfl
    | cons c cs =>
      simp only [replaceAux]
      by_cases hg : pat ≠ [] ∧ pat <+: c :: cs
      · rw [if_pos hg, List.nil_append]
        have hp : 0 < pat.length := List.length_pos.mpr hg.1
        have hn : (List.drop pat.length (c :: cs)).length ≤ n := by
          simp only [List.length_drop, List.length_cons]
          simp only [List.length_cons] at hle
          omega
        have h1 := ih (List.drop pat.length (c :: cs)) hn
        have h2 : (List.drop pat.length (c :: cs)).length ≤ (c :: cs).length := by
          simp only [List.length_drop]
          omega
        exact le_trans h1 h2
      · rw [if_neg hg]
        simp only [List.length_cons] at hle ⊢
        have := ih cs (by omega)
        omega

/-- The pattern length times the occurrence count is at most the text length. -/
theorem countAux_mul_le (pat : List Char) :
    ∀ (n : Nat) (s : List Char), s.length ≤ n →
      pat.length * countAux pat n s ≤ s.length := by
  intro n
  induction n with
  | zero => intro s _; simp [countAux]
  | succ n ih =>
    intro s hle
    cases s with
    | nil => simp [countAux]
    | cons c cs =>
      simp only [countAux]
      by_cases hg : pat ≠ [] ∧ pat <+: c :: cs
      · rw [if_pos hg]
        have hp : 0 < pat.length := List.length_pos.mpr hg.1
        have hpl : pat.length ≤ (c :: cs).length := by
          have h' : ∃ t, pat ++ t = c :: cs := hg.2
          obtain ⟨t, ht⟩ := h'
          rw [← ht]
          simp
        have hn : (List.drop pat.length (c :: cs)).length ≤ n := by
          simp only [List.length_drop, List.length_cons]
          simp only [List.length_cons] at hle
          omega
        have h1 := ih (List.drop pat.length (c :: cs)) hn
        have e1 : pat.length * (1 + countAux pat n (List.drop pat.length (c :: cs)))
            = pat.length + pat.length * countAux pat n (List.drop pat.length (c :: cs)) := by
          ring
        rw [e1]
        simp only [List.length_drop] at h1
        omega
      · rw [if_neg hg]
        simp only [List.length_cons] at hle ⊢
        have := ih cs (by omega)
        omega

/-- Exact length accounting for one deletion pass: every greedy occurrence,
    wherever it is located in the text, is deleted. -/
theorem replaceAux_length (pat : List Char) :
    ∀ (n : Nat) (s : List Char), s.length ≤ n →
      (replaceAux pat [] n s).length = s.length - pat.length * countAux pat n s := by
  intro n
  induction n with
  | zero => intro s _; simp [replaceAux, countAux]
  | succ n ih =>
    intro s hle
    cases s with
    | nil => simp [replaceAux, countAux]
    | cons c cs =>
      simp only [replaceAux, countAux]
      by_cases hg : pat ≠ [] ∧ pat <+: c :: cs
      · rw [if_pos hg, if_pos hg, List.nil_append]
        have hp : 0 < pat.length := List.length_pos.mpr hg.1
        have hpl : pat.length ≤ (c :: cs).length := by
          have h' : ∃ t, pat ++ t = c :: cs := hg.2
          obtain ⟨t, ht⟩ := h'
          rw [← ht]
          simp
        have hn : (List.drop pat.length (c :: cs)).length ≤ n := by
          simp only [List.length_drop, List.length_cons]
          simp only [List.length_cons] at hle
          omega
        rw [ih (List.drop pat.length (c :: cs)) hn]
        have e1 : pat.length * (1 + countAux pat n (List.drop pat.length (c :: cs)))
            = pat.length + pat.length * countAux pat n (List.drop pat.length (c :: cs)) := by
          ring
        rw [e1]
        simp only [List.length_drop]
        generalize pat.length * countAux pat n (List.drop pat.length (c :: cs)) = m
        simp only [List.length_cons] at hpl ⊢
        omega
      · rw [if_neg hg, if_neg hg]
        simp only [List.length_cons]
        rw [ih cs (by simp only [List.length_cons] at hle; omega)]
        have hb := countAux_mul_le pat n cs
          (by simp only [List.length_cons] at hle; omega)
        generalize pat.length * countAux pat n cs = m at hb ⊢
        omega

/-- Occurring anywhere in the text, the pattern is counted at least once. -/
theorem countAux_pos (pat : List Char) (hp : pat ≠ []) :
    ∀ (n : Nat) (s : List Char), s.length ≤ n → pat <:+: s →
      1 ≤ countAux pat n s := by
  intro n
  induction n with
  | zero =>
    intro s hle hin
    have hs : s = [] := List.length_eq_zero.mp (Nat.le_zero.mp hle)
    subst hs
    exact absurd (inNilEq hin) hp
  | succ n ih =>
    intro s hle hin
    cases s with
    | nil => exact absurd (inNilEq hin) hp
    | cons c cs =>
      simp only [countAux]
      by_cases hg : pat ≠ [] ∧ pat <+: c :: cs
      · rw [if_pos hg]; omega
      · rw [if_neg hg]
        rcases List.infix_cons_iff.mp hin with hpre | hin2
        · exact absurd ⟨hp, hpre⟩ hg
        · exact ih cs (by simp only [List.length_cons] at hle; omega) hin2

/-- A single-character pattern replacement is a character map. -/
theorem replaceAux_map (a b : Char) :
    ∀ (n : Nat) (s : List Char), s.length ≤ n →
      replaceAux [a] [b] n s = s.map (fun x => if x = a then b else x) := by
  intro n
  induction n with
  | zero =>
    intro s hle
    have hs : s = [] := List.length_eq_zero.mp (Nat.le_zero.mp hle)
    subst hs
    rfl
  | succ n ih =>
    intro s hle
    cases s with
    | nil => rfl
    | cons c cs =>
      simp only [replaceAux]
      by_cases hc : c = a
      · subst hc
        have hg : ([c] : List Char) ≠ [] ∧ [c] <+: c :: cs := ⟨by simp, ⟨cs, rfl⟩⟩
        rw [if_pos hg]
        simp only [List.length_singleton, List.drop_succ_cons, List.drop_zero,
          List.singleton_append, List.map_cons, if_pos rfl]
        rw [ih cs (by simp only [List.length_cons] at hle; omega)]
        simp
      · have hg : ¬ (([a] : List Char) ≠ [] ∧ [a] <+: c :: cs) := by
          rintro ⟨-, hp⟩
          exact hc ((List.cons_prefix_cons.mp hp).1).symm
        rw [if_neg hg]
        simp only [List.map_cons, if_neg hc]
        rw [ih cs (by simp only [List.length_cons] at hle; omega)]

/- The backtick character and lemmas showing that one pass of
   `replace("```", "")` leaves no triple-backtick run behind. -/

/-- A pass removing a triple of a character cannot introduce that character
    at the head of a text that did not start with it. -/
theorem noTick_replaceAux (tc : Char) :
    ∀ (n : Nat) (s : List Char), ¬ [tc] <+: s →
      ¬ [tc] <+: replaceAux [tc, tc, tc] [] n s := by
  intro n s hs
  cases n with
  | zero => exact hs
  | succ n =>
    cases s with
    | nil =>
      intro h
      have := preNil h
      simp at this
    | cons c cs =>
      have hg : ¬ (([tc, tc, tc] : List Char) ≠ [] ∧ [tc, tc, tc] <+: c :: cs) := by
        rintro ⟨-, hp⟩
        exact hs (preTrans ⟨[tc, tc], rfl⟩ hp)
      simp only [replaceAux, if_neg hg]
      intro h
      have hc : tc = c := (List.cons_prefix_cons.mp h).1
      exact hs (List.cons_prefix_cons.mpr ⟨hc, List.nil_prefix⟩)

/-- A pass removing a triple of a character cannot create a leading pair of
    that character where the text had none. -/
theorem noPair_replaceAux (tc : Char) :
    ∀ (n : Nat) (s : List Char), ¬ [tc, tc] <+: s →
      ¬ [tc, tc] <+: replaceAux [tc, tc, tc] [] n s := by
  intro n s hs
  cases n with
  | zero => exact hs
  | succ n =>
    cases s with
    | nil =>
      intro h
      have := preNil h
      simp at this
    | cons c cs =>
      by_cases hc : tc = c
      · subst hc
        have hcs : ¬ [tc] <+: cs := by
          intro hp
          exact hs (List.cons_prefix_cons.mpr ⟨rfl, hp⟩)
        have hg : ¬ (([tc, tc, tc] : List Char) ≠ [] ∧ [tc, tc, tc] <+: tc :: cs) := by
          rintro ⟨-, hp⟩
          have h2 : [tc, tc] <+: cs := (List.cons_prefix_cons.mp hp).2
          exact hcs (preTrans ⟨[tc], rfl⟩ h2)
        simp only [replaceAux, if_neg hg]
        intro h
        exact noTick_replaceAux tc n cs hcs (List.cons_prefix_cons.mp h).2
      · have hg : ¬ (([tc, tc, tc] : List Char) ≠ [] ∧ [tc, tc, tc] <+: c :: cs) := by
          rintro ⟨-, hp⟩
          exact hc (List.cons_prefix_cons.mp hp).1
        simp only [replaceAux, if_neg hg]
        intro h
        exact hc (List.cons_prefix_cons.mp h).1

/-- After one full pass of `replace("```", "")`' style deletion, no
    occurrence of the triple remains anywhere in the output. -/
theorem noTriple_replaceAux (tc : Char) :
    ∀ (n : Nat) (s : List Char), s.length ≤ n →
      ¬ [tc, tc, tc] <:+: replaceAux [tc, tc, tc] [] n s := by
  intro n
  induction n with
  | zero =>
    intro s hle
    have hs : s = [] := List.length_eq_zero.mp (Nat.le_zero.mp hle)
    subst hs
    intro h
    have := inNilEq h
    simp at this
  | succ n ih =>
    intro s hle
    cases s with
    | nil =>
      intro h
      have := inNilEq h
      simp at this
    | cons c cs =>
      by_cases hg : ([tc, tc, tc] : List Char) ≠ [] ∧ [tc, tc, tc] <+: c :: cs
      · simp only [replaceAux, if_pos hg, List.nil_append]
        apply ih
        simp only [List.length_drop, List.length_cons]
        simp only [List.length_cons] at hle
        omega
      · simp only [replaceAux, if_neg hg]
        intro h
        rcases List.infix_cons_iff.mp h with hpre | hin
        · have h1 := List.cons_prefix_cons.mp hpre
          have hcc : ¬ [tc, tc] <+: cs := by
            intro hp
            exact hg ⟨by simp, List.cons_prefix_cons.mpr ⟨h1.1, hp⟩⟩
          exact noPair_replaceAux tc n cs hcc h1.2
        · exact ih cs (by simp only [List.length_cons] at hle; omega) hin

/- String-level wrappers. -/

theorem str_append_assoc (a b c : String) : a ++ b ++ c = a ++ (b ++ c) := by
  obtain ⟨x⟩ := a
  obtain ⟨y⟩ := b
  obtain ⟨z⟩ := c
  exact congrArg String.mk (List.append_assoc x y z)

theorem str_empty_append (s : String) : "" ++ s = s := by
  obtain ⟨l⟩ := s
  rfl

theorem str_data_append (a b : String) : (a ++ b).data = a.data ++ b.data := by
  obtain ⟨x⟩ := a
  obtain ⟨y⟩ := b
  rfl

/-- Replacing a pattern that does not occur in the string is the identity. -/
theorem pyReplace_id (s pat rep : String) (h : ¬ pat.data <:+: s.data) :
    pyReplace s pat rep = s := by
  obtain ⟨l⟩ := s
  exact congrArg String.mk (replaceAux_id pat.data rep.data l.length l h)

/-- A deletion pass never lengthens a string. -/
theorem pyReplace_length_le (s p : String) : (pyReplace s p "").length ≤ s.length := by
  exact replaceAux_length_le p.data s.data.length s.data le_rfl

/-- A string free of all seven markers is left unchanged by the sanitizer. -/
theorem clean_text_eq_self {s : String} (h : ∀ p ∈ markers, ¬ p.data <:+: s.data) :
    clean_text s = s := by
  show pyReplace (pyReplace (pyReplace (pyReplace (pyReplace (pyReplace (pyReplace
    s "```html" "") "```" "") "<!DOCTYPE html>" "") "<html>" "") "</html>" "")
    "<body>" "") "</body>" "" = s
  rw [pyReplace_id s "```html" "" (h "```html" (by decide)),
    pyReplace_id s "```" "" (h "```" (by decide)),
    pyReplace_id s "<!DOCTYPE html>" "" (h "<!DOCTYPE html>" (by decide)),
    pyReplace_id s "<html>" "" (h "<html>" (by decide)),
    pyReplace_id s "</html>" "" (h "</html>" (by decide)),
    pyReplace_id s "<body>" "" (h "<body>" (by decide)),
    pyReplace_id s "</body>" "" (h "</body>" (by decide))]

/-- The sanitizer never lengthens the text. -/
theorem clean_text_length_le (s : String) : (clean_text s).length ≤ s.length := by
  show (pyReplace (pyReplace (pyReplace (pyReplace (pyReplace (pyReplace (pyReplace
    s "```html" "") "```" "") "<!DOCTYPE html>" "") "<html>" "") "</html>" "")
    "<body>" "") "</body>" "").length ≤ s.length
  exact le_trans (pyReplace_length_le _ _) (le_trans (pyReplace_length_le _ _)
    (le_trans (pyReplace_length_le _ _) (le_trans (pyReplace_length_le _ _)
      (le_trans (pyReplace_length_le _ _) (le_trans (pyReplace_length_le _ _)
        (pyReplace_length_le _ _))))))

/- In-order occurrence lemmas. -/

theorem inOrder_cons_head (p : String) (ps : List String) (b : String)
    (h : InOrder ps b) : InOrder (p :: ps) (p ++ b) := by
  show ∃ a b' : String, p ++ b = a ++ p ++ b' ∧ InOrder ps b'
  refine ⟨"", b, ?_, h⟩
  rw [str_empty_append]

theorem inOrder_append_left (ps : List String) (t s : String)
    (h : InOrder ps s) : InOrder ps (t ++ s) := by
  induction ps generalizing t s with
  | nil => trivial
  | cons p ps ih =>
    have h' : ∃ a b : String, s = a ++ p ++ b ∧ InOrder ps b := h
    obtain ⟨a, b, hab, hrest⟩ := h'
    show ∃ a' b' : String, t ++ s = a' ++ p ++ b' ∧ InOrder ps b'
    refine ⟨t ++ a, b, ?_, hrest⟩
    rw [hab]
    simp only [str_append_assoc]

/-- The 16 section labels occur in the prompt in the specified order, for
    every community name. -/
theorem inOrder_build (c : String) : InOrder sections (build_prompt c) := by
  unfold build_prompt sections
  simp only [str_append_assoc]
  repeat first | apply inOrder_cons_head | apply inOrder_append_left
  trivial

/-- The community name is embedded verbatim in the prompt. -/
theorem bp_contains_name (c : String) :
    ∃ x y : String, build_prompt c = x ++ (c ++ y) := by
  unfold build_prompt
  simp only [str_append_assoc]
  exact ⟨_, _, rfl⟩

/- Claim theorems. -/

/-- C1 counterexample: exporting immediately after generation does not yield
    the sanitized text itself; the artifact is strictly the wrapped form. -/
theorem c1_counterexample :
    final_html (clean_text "<p>Hello</p>") ≠ clean_text "<p>Hello</p>" := by
  decide

/-- C1 (amended): exporting immediately after a successful generation with no
    edits yields an artifact whose content is the fixed HTML wrapper head,
    then the sanitized generated text verbatim, then the fixed wrapper tail;
    in particular the sanitized text is embedded unchanged as a contiguous
    substring of the artifact. -/
theorem c1_amended_wrapped_export (key name r prior : String)
    (provider : String → Except String String) (hne : name ≠ "")
    (hok : provider (build_prompt name) = Except.ok r) :
    (final_html ((app_run (some key) name true provider prior).ebook_content)).data
      = html_head.data ++ ((clean_text r).data ++ html_tail.data) ∧
    (clean_text r).data <:+:
      (final_html ((app_run (some key) name true provider prior).ebook_content)).data := by
  have hst : (app_run (some key) name true provider prior).ebook_content
      = clean_text r := by
    show (generate_step name provider prior).ebook_content = clean_text r
    unfold generate_step
    rw [if_neg hne, hok]
  rw [hst]
  have hdata : (final_html (clean_text r)).data
      = html_head.data ++ ((clean_text r).data ++ html_tail.data) := by
    show (html_head ++ clean_text r ++ html_tail).data = _
    rw [str_data_append, str_data_append, List.append_assoc]
  refine ⟨hdata, ⟨html_head.data, html_tail.data, ?_⟩⟩
  rw [hdata, List.append_assoc]

theorem c1_amended_witness :
    (final_html ((app_run (some "k") "X" true
        (fun _ => Except.ok "<p>Hi</p>") "").ebook_content)).data
      = html_head.data ++ ((clean_text "<p>Hi</p>").data ++ html_tail.data) ∧
    (clean_text "<p>Hi</p>").data <:+:
      (final_html ((app_run (some "k") "X" true
        (fun _ => Except.ok "<p>Hi</p>") "").ebook_content)).data :=
  c1_amended_wrapped_export "k" "X" "<p>Hi</p>" ""
    (fun _ => Except.ok "<p>Hi</p>") (by decide) rfl

/-- C2 counterexample: the sanitizer is not idempotent on every input.
    On "``<html>`", removing "<html>" joins the surrounding backticks into
    a fresh "```", which only a second application removes. -/
theorem c2_counterexample :
    clean_text (clean_text "``<html>`") ≠ clean_text "``<html>`" := by
  decide

/-- C2 (amended): the sanitizer is idempotent on every input already free of
    the seven marker substrings. -/
theorem c2_amended_idempotent (s : String)
    (h : ∀ p ∈ markers, ¬ p.data <:+: s.data) :
    clean_text (clean_text s) = clean_text s := by
  rw [clean_text_eq_self h]
  exact clean_text_eq_self h

theorem c2_amended_witness :
    (∀ p ∈ markers, ¬ p.data <:+: ("Hello world" : String).data) ∧
    clean_text (clean_text "Hello world") = clean_text "Hello world" :=
  ⟨by decide, c2_amended_idempotent "Hello world" (by decide)⟩

/-- C3 counterexample: only the space character is replaced by an
    underscore; a tab in the community name survives into the filename,
    contradicting "whitespace replaced by underscores". -/
theorem c3_counterexample :
    download_file_name "Data\tScientists"
      ≠ spec_download_file_name "Data\tScientists" := by
  decide

/-- C3 (amended): for every non-empty community name the filename is the
    name with each space character replaced by an underscore, followed by
    the fixed suffix "_Guide.html"; for "Data Scientists" it is
    "Data_Scientists_Guide.html". -/
theorem c3_amended_filename :
    (∀ name : String, name ≠ "" →
      download_file_name name =
        (⟨name.data.map (fun ch => if ch = ' ' then '_' else ch)⟩ : String)
          ++ "_Guide.html") ∧
    download_file_name "Data Scientists" = "Data_Scientists_Guide.html" := by
  constructor
  · intro name hne
    unfold download_file_name
    rw [if_neg hne]
    have hmap : pyReplace name " " "_" =
        (⟨name.data.map (fun ch => if ch = ' ' then '_' else ch)⟩ : String) := by
      obtain ⟨l⟩ := name
      exact congrArg String.mk (replaceAux_map ' ' '_' l.length l le_rfl)
    rw [hmap]
  · decide

theorem c3_amended_witness :
    ("John Smith" : String) ≠ "" ∧
    download_file_name "John Smith" =
      (⟨("John Smith" : String).data.map
        (fun ch => if ch = ' ' then '_' else ch)⟩ : String) ++ "_Guide.html" :=
  ⟨by decide, c3_amended_filename.1 "John Smith" (by decide)⟩

/-- C4: triggering generation with an empty community name makes no provider
    call, shows the input-error warning, and leaves the session state
    unchanged. -/
theorem c4_empty_name_no_call (key prior : String)
    (provider : String → Except String String) :
    app_run (some key) "" true provider prior =
      ⟨false, ["Target community required."], [], prior, 0⟩ :=
  rfl

/-- C5: when the provider call raises, an error message is shown and the
    session-state document keeps its prior value; exactly the one failed
    call was made. -/
theorem c5_provider_error_state_unchanged (key name e prior : String)
    (provider : String → Except String String) (hne : name ≠ "")
    (herr : provider (build_prompt name) = Except.error e) :
    app_run (some key) name true provider prior =
      ⟨false, [], ["Error: " ++ e], prior, 1⟩ := by
  show generate_step name provider prior = _
  unfold generate_step
  rw [if_neg hne, herr]

theorem c5_witness :
    app_run (some "k") "X" true (fun _ => Except.error "boom") "" =
      ⟨false, [], ["Error: " ++ "boom"], "", 1⟩ :=
  c5_provider_error_state_unchanged "k" "X" "boom" ""
    (fun _ => Except.error "boom") (by decide) rfl

/-- C6: with the provider credential absent from the secret store, the
    session halts immediately with the explanatory message; whatever the
    inputs, no provider call is made and the generation action is
    unreachable in that session load. -/
theorem c6_missing_credential_halts (name : String) (btn : Bool)
    (provider : String → Except String String) (prior : String) :
    app_run none name btn provider prior =
      ⟨true, [], ["Please set your GEMINI_API_KEY in Streamlit Secrets."],
        prior, 0⟩ :=
  rfl

/-- C7: for every non-empty community name, the prompt builder's output
    contains the exact name verbatim and carries the fixed section-ordering
    list unchanged; the builder is a total Lean function of the name. -/
theorem c7_prompt_embeds_name (c : String) (_h : c ≠ "") :
    (∃ x y : String, build_prompt c = x ++ (c ++ y)) ∧
    InOrder sections (build_prompt c) :=
  ⟨bp_contains_name c, inOrder_build c⟩

theorem c7_witness :
    ("Data Scientists" : String) ≠ "" ∧
    ((∃ x y : String,
        build_prompt "Data Scientists" = x ++ ("Data Scientists" ++ y)) ∧
      InOrder sections (build_prompt "Data Scientists")) :=
  ⟨by decide, c7_prompt_embeds_name "Data Scientists" (by decide)⟩

/-- C8: for every community name, the 16 required section labels, PREFACE
    through APPENDIX & TEMPLATES, occur in the prompt in the specified
    order. -/
theorem c8_sections_in_order (c : String) :
    InOrder sections (build_prompt c) :=
  inOrder_build c

/-- C9 counterexample: the full sanitizer can leave a code-fence marker in
    its output: on "``<body>`", removing "<body>" joins the backticks into
    "```" after the fence-removal passes already ran. -/
theorem c9_counterexample :
    clean_text "``<body>`" = "```" ∧
    ("```".data <:+: (clean_text "``<body>`").data) :=
  ⟨by decide, by decide⟩

/-- C9 (amended): for every raw response text, the text after the
    sanitizer's two code-fence removal passes contains no literal code-fence
    marker (neither "```" nor "```html"); only the subsequent wrapper-tag
    removals can reintroduce one. -/
theorem c9_amended_fence_free (s : String) :
    ¬ ("```".data <:+: (pyReplace (pyReplace s "```html" "") "```" "").data) ∧
    ¬ ("```html".data <:+: (pyReplace (pyReplace s "```html" "") "```" "").data) := by
  have hmain :
      ¬ ("```".data <:+: (pyReplace (pyReplace s "```html" "") "```" "").data) := by
    rw [show ("```" : String).data = [btChar, btChar, btChar] from by decide]
    exact noTriple_replaceAux btChar _ _ le_rfl
  exact ⟨hmain, fun hin => hmain (inOfPreIn (by decide) hin)⟩

theorem c9_amended_witness :
    ¬ ("```".data <:+:
      (pyReplace (pyReplace "a``<ht```ml>`b" "```html" "") "```" "").data) :=
  (c9_amended_fence_free "a``<ht```ml>`b").1

/-- C10: each replacement pass removes every greedy occurrence of its marker
    wherever it occurs in the text (the output length drops by exactly the
    marker length times the occurrence count, and any occurrence anywhere
    makes that count positive), and consequently the sanitizer's output is
    never longer than its input. -/
theorem c10_markers_globally_removed :
    (∀ s : String, (clean_text s).length ≤ s.length) ∧
    (∀ p : String, p ∈ markers → ∀ s : String,
      (pyReplace s p "").length
        = s.length - p.length * countOcc p.data s.data) ∧
    (∀ p : String, p ∈ markers → ∀ s : String,
      p.data <:+: s.data → 1 ≤ countOcc p.data s.data) := by
  refine ⟨clean_text_length_le, ?_, ?_⟩
  · intro p _ s
    exact replaceAux_length p.data s.data.length s.data le_rfl
  · intro p hp s hin
    have hall : ∀ q ∈ markers, (q : String).data ≠ [] := by decide
    exact countAux_pos p.data (hall p hp) s.data.length s.data le_rfl hin

theorem c10_witness :
    ("<body>" : String) ∈ markers ∧
    (pyReplace "a<body>b" "<body>" "").length =
      ("a<body>b" : String).length -
        ("<body>" : String).length *
          countOcc ("<body>" : String).data ("a<body>b" : String).data ∧
    (("<body>" : String).data <:+: ("a<body>b" : String).data) ∧
    1 ≤ countOcc ("<body>" : String).data ("a<body>b" : String).data :=
  ⟨by decide,
   c10_markers_globally_removed.2.1 "<body>" (by decide) "a<body>b",
   by decide,
   c10_markers_globally_removed.2.2 "<body>" (by decide) "a<body>b" (by decide)⟩
